import Mathlib

/-!
Verification development for the call-analysis pipeline
(`vapi_analyzer.py` and the API routes of `app.py`).

The Python source keeps its state in ordered dictionaries; those are
embedded here as association lists over `String` keys with Python
assignment semantics (`dictInsert` replaces the value in place when the
key exists, otherwise appends).  Numeric values (Python floats) are
modelled as exact rationals; timestamps compared by `datetime` order are
modelled as integers.  Outcomes of the external services (the completion
API and `json.loads`) are inputs to the embedded functions, mirroring the
exception structure of the source.
-/

/-! ### Python dict embedding -/

def dictGet {α : Type} : List (String × α) → String → Option α
  | [], _ => none
  | (k', v) :: rest, k => if k' = k then some v else dictGet rest k

/-- Python `d[k] = v`: replace in place when the key exists, else append. -/
def dictInsert {α : Type} : List (String × α) → String → α → List (String × α)
  | [], k, v => [(k, v)]
  | (k', v') :: rest, k, v =>
      if k' = k then (k, v) :: rest else (k', v') :: dictInsert rest k v

/-- Python `del d[k]`. -/
def dictErase {α : Type} : List (String × α) → String → List (String × α)
  | [], _ => []
  | (k', v') :: rest, k => if k' = k then rest else (k', v') :: dictErase rest k

def dictKeys {α : Type} (d : List (String × α)) : List String := d.map Prod.fst

def keysNodup {α : Type} (d : List (String × α)) : Prop := (dictKeys d).Nodup

instance {α : Type} (d : List (String × α)) : Decidable (keysNodup d) := by
  unfold keysNodup; infer_instance

theorem dictGet_insert_self {α : Type} (d : List (String × α)) (k : String) (v : α) :
    dictGet (dictInsert d k v) k = some v := by
  induction d with
  | nil => simp [dictInsert, dictGet]
  | cons hd tl ih =>
    obtain ⟨k', v'⟩ := hd
    by_cases h : k' = k
    · simp [dictInsert, dictGet, h]
    · simp [dictInsert, dictGet, h, ih]

theorem dictGet_insert_ne {α : Type} (d : List (String × α)) (k k' : String) (v : α)
    (h : k' ≠ k) : dictGet (dictInsert d k v) k' = dictGet d k' := by
  induction d with
  | nil => simp [dictInsert, dictGet, Ne.symm h]
  | cons hd tl ih =>
    obtain ⟨k0, v0⟩ := hd
    by_cases h0 : k0 = k
    · subst h0
      simp [dictInsert, dictGet, Ne.symm h]
    · by_cases h1 : k0 = k' <;> simp [dictInsert, dictGet, h0, h1, h, ih]

theorem mem_dictKeys_insert {α : Type} (d : List (String × α)) (k m : String) (v : α)
    (h : m ∈ dictKeys (dictInsert d k v)) : m = k ∨ m ∈ dictKeys d := by
  induction d with
  | nil => simpa [dictInsert, dictKeys] using h
  | cons hd tl ih =>
    obtain ⟨k0, v0⟩ := hd
    by_cases h0 : k0 = k
    · subst h0
      simpa [dictInsert, dictKeys] using h
    · simp only [dictInsert, h0, if_false, dictKeys, List.map_cons, List.mem_cons] at h
      rcases h with h | h
      · exact Or.inr (by simp [dictKeys, h])
      · rcases ih h with h' | h'
        · exact Or.inl h'
        · exact Or.inr (by simp [dictKeys] at h' ⊢; exact Or.inr h')

theorem keysNodup_insert {α : Type} (d : List (String × α)) (k : String) (v : α)
    (h : keysNodup d) : keysNodup (dictInsert d k v) := by
  induction d with
  | nil => simp [keysNodup, dictKeys, dictInsert]
  | cons hd tl ih =>
    obtain ⟨k0, v0⟩ := hd
    simp only [keysNodup, dictKeys, List.map_cons, List.nodup_cons] at h
    by_cases h0 : k0 = k
    · subst h0
      simpa [keysNodup, dictKeys, dictInsert, List.nodup_cons] using h
    · have htl := ih h.2
      simp only [dictInsert, h0, if_false]
      simp only [keysNodup, dictKeys, List.map_cons, List.nodup_cons]
      refine ⟨?_, htl⟩
      intro hmem
      rcases mem_dictKeys_insert tl k k0 v hmem with h' | h'
      · exact h0 h'
      · exact h.1 h'

theorem dictInsert_of_not_mem {α : Type} (d : List (String × α)) (k : String) (v : α)
    (h : k ∉ dictKeys d) : dictInsert d k v = d ++ [(k, v)] := by
  induction d with
  | nil => simp [dictInsert]
  | cons hd tl ih =>
    obtain ⟨k0, v0⟩ := hd
    simp only [dictKeys, List.map_cons, List.mem_cons] at h
    push_neg at h
    have h0 : k0 ≠ k := Ne.symm h.1
    simp [dictInsert, h0, ih h.2]

theorem dictGet_eq_none_of_not_mem {α : Type} (d : List (String × α)) (k : String)
    (h : k ∉ dictKeys d) : dictGet d k = none := by
  induction d with
  | nil => simp [dictGet]
  | cons hd tl ih =>
    obtain ⟨k0, v0⟩ := hd
    simp only [dictKeys, List.map_cons, List.mem_cons] at h
    push_neg at h
    have h0 : k0 ≠ k := Ne.symm h.1
    simp [dictGet, h0, ih h.2]

/-! ### Prompt registry (`VAPIAnalyzer.__init__`, `add_system_prompt`,
`activate_prompt`, and the `app.py` routes `activate_prompt` /
`delete_prompt`) -/

structure SystemPrompt where
  id : String
  name : String
  prompt : String
  created_at : String
  is_active : Bool
deriving DecidableEq

structure RegistryState where
  system_prompts : List (String × SystemPrompt)
  active_prompt_id : Option String
deriving DecidableEq

/-- Initial analyzer state: `self.system_prompts = {}`, `self.active_prompt_id = None`. -/
def initRegistry : RegistryState := { system_prompts := [], active_prompt_id := none }

/-- Embeds `VAPIAnalyzer.add_system_prompt`; `now` stands for
`datetime.now().isoformat()` and `promptText` for the `prompt` parameter. -/
def add_system_prompt (s : RegistryState) (name promptText now : String) :
    String × RegistryState :=
  let prompt_id := "prompt_" ++ Nat.repr (s.system_prompts.length + 1)
  (prompt_id,
    { s with
      system_prompts := dictInsert s.system_prompts prompt_id
        { id := prompt_id, name := name, prompt := promptText,
          created_at := now, is_active := false } })

/-- The `for pid in self.system_prompts: ...['is_active'] = False` loop. -/
def deactivateAll (d : List (String × SystemPrompt)) : List (String × SystemPrompt) :=
  d.map (fun kv => (kv.1, { kv.2 with is_active := false }))

/-- The `self.system_prompts[prompt_id]['is_active'] = True` update. -/
def setActiveTrue (d : List (String × SystemPrompt)) (k : String) :
    List (String × SystemPrompt) :=
  d.map (fun kv => if kv.1 = k then (kv.1, { kv.2 with is_active := true }) else kv)

/-- Embeds `VAPIAnalyzer.activate_prompt`: deactivate every prompt, then, if the
id is a key of the dict, activate it and record it as current. -/
def activate_prompt (s : RegistryState) (prompt_id : String) : RegistryState :=
  let deact := deactivateAll s.system_prompts
  if (dictGet s.system_prompts prompt_id).isSome then
    { system_prompts := setActiveTrue deact prompt_id, active_prompt_id := some prompt_id }
  else
    { s with system_prompts := deact }

inductive ApiError
  | NotFound
  | InvalidOperation
deriving DecidableEq

/-- Embeds the `app.py` route `POST /api/prompts/<id>/activate`: 404 when the id
is not a key of the registry (state untouched), else the analyzer method runs. -/
def api_activate_prompt (s : RegistryState) (prompt_id : String) :
    Except ApiError Unit × RegistryState :=
  if (dictGet s.system_prompts prompt_id).isNone then
    (Except.error ApiError.NotFound, s)
  else
    (Except.ok (), activate_prompt s prompt_id)

/-- Embeds the `app.py` route `DELETE /api/prompts/<id>`: 404 when unknown,
400 when the id is the active prompt, else the entry is deleted. -/
def api_delete_prompt (s : RegistryState) (prompt_id : String) :
    Except ApiError Unit × RegistryState :=
  if (dictGet s.system_prompts prompt_id).isNone then
    (Except.error ApiError.NotFound, s)
  else if s.active_prompt_id = some prompt_id then
    (Except.error ApiError.InvalidOperation, s)
  else
    (Except.ok (), { s with system_prompts := dictErase s.system_prompts prompt_id })

/-- A sequence of registry calls restricted to `add` and `activate`. -/
inductive RegOp
  | addOp (name promptText now : String)
  | activateOp (id : String)

def applyRegOp (s : RegistryState) : RegOp → RegistryState
  | RegOp.addOp name promptText now => (add_system_prompt s name promptText now).2
  | RegOp.activateOp id => activate_prompt s id

def runRegOps (s : RegistryState) : List RegOp → RegistryState
  | [] => s
  | op :: rest => runRegOps (applyRegOp s op) rest

def countActive (s : RegistryState) : Nat :=
  (s.system_prompts.filter (fun kv => kv.2.is_active)).length

/-! ### Decimal representation: `Nat.repr` is injective

The prompt-id generator concatenates a fixed stem with the decimal
representation of the store size; freshness of generated ids rests on
injectivity of that representation, proved here by evaluating the digit
string back to the number. -/

def digitVal (c : Char) : Nat := c.toNat - 48

def evalDigitStep (a : Nat) (c : Char) : Nat := 10 * a + digitVal c

def evalDigits (ds : List Char) : Nat := ds.foldl evalDigitStep 0

theorem digitVal_digitChar (m : Nat) (h : m < 10) : digitVal (Nat.digitChar m) = m := by
  interval_cases m <;> rfl

theorem foldl_evalDigitStep (ds : List Char) (a : Nat) :
    ds.foldl evalDigitStep a = a * 10 ^ ds.length + evalDigits ds := by
  induction ds generalizing a with
  | nil => simp [evalDigits]
  | cons c t ih =>
    simp only [List.foldl_cons, evalDigits] at *
    rw [ih (evalDigitStep a c), ih (evalDigitStep 0 c)]
    simp only [evalDigitStep, List.length_cons, pow_succ]
    ring

theorem evalDigits_cons (c : Char) (ds : List Char) :
    evalDigits (c :: ds) = digitVal c * 10 ^ ds.length + evalDigits ds := by
  simp only [evalDigits, List.foldl_cons]
  rw [foldl_evalDigitStep]
  simp [evalDigitStep, evalDigits]

theorem evalDigits_toDigitsCore (fuel : Nat) : ∀ (n : Nat) (ds : List Char), n < fuel →
    evalDigits (Nat.toDigitsCore 10 fuel n ds) = n * 10 ^ ds.length + evalDigits ds := by
  induction fuel with
  | zero => exact fun n ds h => absurd h (Nat.not_lt_zero n)
  | succ f ih =>
    intro n ds h
    have hunf : Nat.toDigitsCore 10 (f + 1) n ds =
        (if n / 10 = 0 then (n % 10).digitChar :: ds
         else Nat.toDigitsCore 10 f (n / 10) ((n % 10).digitChar :: ds)) := by
      simp [Nat.toDigitsCore]
    rw [hunf]
    by_cases h0 : n / 10 = 0
    · have hn : n < 10 := by omega
      have hmod : n % 10 = n := Nat.mod_eq_of_lt hn
      simp only [h0, if_true, evalDigits_cons, hmod, digitVal_digitChar n hn]
    · have hge : 10 ≤ n := by
        by_contra hlt
        exact h0 (Nat.div_eq_of_lt (by omega))
      have hdiv : n / 10 < f := by
        have h1 : n / 10 < n := Nat.div_lt_self (by omega) (by omega)
        omega
      simp only [h0, if_false]
      rw [ih (n / 10) ((n % 10).digitChar :: ds) hdiv]
      rw [evalDigits_cons, digitVal_digitChar (n % 10) (Nat.mod_lt n (by omega))]
      have hnm : 10 * (n / 10) + n % 10 = n := Nat.div_add_mod n 10
      simp only [List.length_cons, pow_succ]
      calc n / 10 * (10 ^ ds.length * 10) + (n % 10 * 10 ^ ds.length + evalDigits ds)
          = (10 * (n / 10) + n % 10) * 10 ^ ds.length + evalDigits ds := by ring
        _ = n * 10 ^ ds.length + evalDigits ds := by rw [hnm]

theorem evalDigits_toDigits (n : Nat) : evalDigits (Nat.toDigits 10 n) = n := by
  have h := evalDigits_toDigitsCore (n + 1) n [] (Nat.lt_succ_self n)
  simpa [Nat.toDigits, evalDigits] using h

theorem natRepr_injective : Function.Injective Nat.repr := by
  intro a b hab
  have hdig : Nat.toDigits 10 a = Nat.toDigits 10 b := by
    have h1 : (Nat.toDigits 10 a).asString = (Nat.toDigits 10 b).asString := hab
    have h2 : ((Nat.toDigits 10 a).asString).data = ((Nat.toDigits 10 b).asString).data :=
      congrArg String.data h1
    simpa [List.asString] using h2
  calc a = evalDigits (Nat.toDigits 10 a) := (evalDigits_toDigits a).symm
    _ = evalDigits (Nat.toDigits 10 b) := by rw [hdig]
    _ = b := evalDigits_toDigits b

/-- The id generator `f"prompt_{n}"`. -/
def promptKey (i : Nat) : String := "prompt_" ++ Nat.repr i

theorem string_data_inj {s t : String} (h : s.data = t.data) : s = t := by
  cases s
  cases t
  simp only at h
  rw [h]

theorem promptKey_injective : Function.Injective promptKey := by
  intro a b h
  apply natRepr_injective
  have h2 := congrArg String.data h
  simp only [promptKey, String.data_append] at h2
  exact string_data_inj (List.append_cancel_left h2)

def promptKeys (n : Nat) : List String := (List.range n).map (fun i => promptKey (i + 1))

theorem promptKeys_nodup (n : Nat) : (promptKeys n).Nodup := by
  refine List.Nodup.map ?_ (List.nodup_range n)
  intro a b hab
  have := promptKey_injective hab
  omega

theorem promptKey_not_mem (n : Nat) : promptKey (n + 1) ∉ promptKeys n := by
  simp only [promptKeys, List.mem_map, not_exists]
  rintro i ⟨hi, hkey⟩
  have := promptKey_injective hkey
  have hr : i < n := List.mem_range.mp hi
  omega

theorem promptKeys_succ (n : Nat) :
    promptKeys (n + 1) = promptKeys n ++ [promptKey (n + 1)] := by
  simp [promptKeys, List.range_succ]

/-! ### Registry lemmas -/

theorem dictKeys_deactivateAll (d : List (String × SystemPrompt)) :
    dictKeys (deactivateAll d) = dictKeys d := by
  simp [dictKeys, deactivateAll]

theorem dictKeys_setActiveTrue (d : List (String × SystemPrompt)) (k : String) :
    dictKeys (setActiveTrue d k) = dictKeys d := by
  induction d with
  | nil => rfl
  | cons hd tl ih =>
    obtain ⟨k0, p0⟩ := hd
    by_cases h : k0 = k <;> simp [dictKeys, setActiveTrue, h] <;>
      simpa [dictKeys, setActiveTrue] using ih

theorem dictKeys_activate (s : RegistryState) (id : String) :
    dictKeys (activate_prompt s id).system_prompts = dictKeys s.system_prompts := by
  unfold activate_prompt
  by_cases h : (dictGet s.system_prompts id).isSome <;>
    simp [h, dictKeys_setActiveTrue, dictKeys_deactivateAll]

theorem dictGet_deactivateAll (d : List (String × SystemPrompt)) (k : String) :
    dictGet (deactivateAll d) k =
      (dictGet d k).map (fun p => { p with is_active := false }) := by
  induction d with
  | nil => rfl
  | cons hd tl ih =>
    obtain ⟨k0, p0⟩ := hd
    by_cases h : k0 = k <;> simp [deactivateAll, dictGet, h] <;>
      simpa [deactivateAll] using ih

theorem dictGet_map_keyfun {α β : Type} (f : String → α → β) (d : List (String × α))
    (m : String) :
    dictGet (d.map (fun kv => (kv.1, f kv.1 kv.2))) m = (dictGet d m).map (f m) := by
  induction d with
  | nil => rfl
  | cons hd tl ih =>
    obtain ⟨k0, v0⟩ := hd
    by_cases h : k0 = m
    · subst h
      simp [dictGet]
    · simp [dictGet, h, ih]

theorem setActiveTrue_eq_map (d : List (String × SystemPrompt)) (k : String) :
    setActiveTrue d k =
      d.map (fun kv => (kv.1, if kv.1 = k then { kv.2 with is_active := true } else kv.2)) := by
  unfold setActiveTrue
  congr 1
  funext kv
  by_cases h : kv.1 = k <;> simp [h]

theorem dictGet_setActiveTrue (d : List (String × SystemPrompt)) (k m : String) :
    dictGet (setActiveTrue d k) m =
      (dictGet d m).map (fun p => if m = k then { p with is_active := true } else p) := by
  rw [setActiveTrue_eq_map]
  exact dictGet_map_keyfun (fun k1 p => if k1 = k then { p with is_active := true } else p) d m

theorem setActiveTrue_not_mem (d : List (String × SystemPrompt)) (k : String)
    (h : k ∉ dictKeys d) : setActiveTrue d k = d := by
  induction d with
  | nil => rfl
  | cons hd tl ih =>
    obtain ⟨k0, p0⟩ := hd
    simp only [dictKeys, List.map_cons, List.mem_cons] at h
    push_neg at h
    have h0 : k0 ≠ k := Ne.symm h.1
    simp [setActiveTrue, h0]
    simpa [setActiveTrue] using ih h.2

theorem filter_active_deactivateAll (d : List (String × SystemPrompt)) :
    (deactivateAll d).filter (fun kv => kv.2.is_active) = [] := by
  induction d with
  | nil => rfl
  | cons hd tl ih => simp [deactivateAll, List.filter] at ih ⊢; exact ih

theorem countActive_activate (s : RegistryState) (id : String)
    (h : keysNodup s.system_prompts) : countActive (activate_prompt s id) ≤ 1 := by
  unfold activate_prompt countActive
  by_cases hmem : (dictGet s.system_prompts id).isSome
  · simp only [hmem, if_true]
    revert h
    generalize s.system_prompts = d
    intro h
    induction d with
    | nil => simp [deactivateAll, setActiveTrue]
    | cons hd tl ih =>
      obtain ⟨k0, p0⟩ := hd
      simp only [keysNodup, dictKeys, List.map_cons, List.nodup_cons] at h
      by_cases h0 : k0 = id
      · subst h0
        have hnm : k0 ∉ dictKeys (deactivateAll tl) := by
          rw [dictKeys_deactivateAll]; exact h.1
        simp only [deactivateAll, List.map_cons, setActiveTrue, if_pos rfl]
        rw [show (List.map (fun kv => if kv.1 = k0 then (kv.1, { kv.2 with is_active := true }) else kv) (List.map (fun kv => (kv.1, { kv.2 with is_active := false })) tl)) = setActiveTrue (deactivateAll tl) k0 from rfl]
        rw [setActiveTrue_not_mem _ _ hnm]
        simp [List.filter, filter_active_deactivateAll]
      · have ihh := ih h.2
        simp only [deactivateAll, List.map_cons, setActiveTrue, if_neg h0] at ihh ⊢
        simpa [List.filter] using ihh
  · simp only [hmem, if_false]
    simp [filter_active_deactivateAll]

def countAdds : List RegOp → Nat
  | [] => 0
  | RegOp.addOp _ _ _ :: rest => countAdds rest + 1
  | RegOp.activateOp _ :: rest => countAdds rest

theorem dictKeys_length {α : Type} (d : List (String × α)) :
    (dictKeys d).length = d.length := by
  simp [dictKeys]

theorem promptKeys_length (n : Nat) : (promptKeys n).length = n := by
  simp [promptKeys]

theorem runRegOps_keys (ops : List RegOp) : ∀ (s : RegistryState) (n : Nat),
    dictKeys s.system_prompts = promptKeys n →
    dictKeys (runRegOps s ops).system_prompts = promptKeys (n + countAdds ops) := by
  induction ops with
  | nil => intro s n h; simpa [runRegOps, countAdds] using h
  | cons op rest ih =>
    intro s n h
    cases op with
    | addOp name promptText now =>
      have hlen : s.system_prompts.length = n := by
        rw [← dictKeys_length, h, promptKeys_length]
      have hfresh : promptKey (n + 1) ∉ dictKeys s.system_prompts := by
        rw [h]; exact promptKey_not_mem n
      have hkeys : dictKeys (applyRegOp s (RegOp.addOp name promptText now)).system_prompts =
          promptKeys (n + 1) := by
        simp only [applyRegOp, add_system_prompt, hlen]
        rw [show ("prompt_" ++ Nat.repr (n + 1)) = promptKey (n + 1) from rfl]
        rw [dictInsert_of_not_mem _ _ _ hfresh]
        simp [dictKeys, promptKeys_succ, promptKey]
        rw [← h]
        simp [dictKeys]
      have := ih _ (n + 1) hkeys
      rw [runRegOps]
      rw [this]
      congr 1
      simp only [countAdds]
      omega
    | activateOp id =>
      have hkeys : dictKeys (applyRegOp s (RegOp.activateOp id)).system_prompts =
          promptKeys n := by
        simp only [applyRegOp]
        rw [dictKeys_activate, h]
      have := ih _ n hkeys
      rw [runRegOps]
      rw [this]
      rfl

theorem runRegOps_keys_init (ops : List RegOp) :
    dictKeys (runRegOps initRegistry ops).system_prompts = promptKeys (countAdds ops) := by
  have h0 : dictKeys initRegistry.system_prompts = promptKeys 0 := by
    simp [initRegistry, dictKeys, promptKeys]
  simpa using runRegOps_keys ops initRegistry 0 h0

theorem runRegOps_keysNodup (ops : List RegOp) :
    keysNodup (runRegOps initRegistry ops).system_prompts := by
  rw [keysNodup, runRegOps_keys_init]
  exact promptKeys_nodup _

/-! ### Performance scorer (`VAPIAnalyzer.analyze_call_performance`)

The remote completion call and `json.loads` are external; their combined
outcome is an input `RemoteOutcome`.  A decoded reply is a partial record
(missing keys are `none`); its `performance_score` entry is classified by
whether the Python `float(...)` coercion succeeds (`coercible q`) or
raises (`uncoercible err`, carrying `str(e)`). -/

structure AnalysisDict where
  performance_score : Rat
  strengths : List String
  improvement_areas : List String
  prompt_suggestions : List String
  compliance_issues : List String
  detailed_analysis : String
deriving DecidableEq

/-- The record stored by `self.call_analyses[call_id] = {**analysis_json, ...}`. -/
structure StoredAnalysis where
  core : AnalysisDict
  call_id : String
  analyzed_at : String
  transcript : String
deriving DecidableEq

abbrev AnalysisStore := List (String × StoredAnalysis)

/-- The assignment `self.call_analyses[call_id] = record` (plain dict write). -/
def storePut (store : AnalysisStore) (cid : String) (a : StoredAnalysis) : AnalysisStore :=
  dictInsert store cid a

inductive ScoreVal
  | coercible (q : Rat)
  | uncoercible (err : String)
deriving DecidableEq

structure PartialAnalysis where
  performance_score : Option ScoreVal
  strengths : Option (List String)
  improvement_areas : Option (List String)
  prompt_suggestions : Option (List String)
  compliance_issues : Option (List String)
  detailed_analysis : Option String
deriving DecidableEq

inductive RemoteOutcome
  | failure (err : String)
  | reply (text : String) (decoded : Option PartialAnalysis)
deriving DecidableEq

/-- Fallback returned from the `json.JSONDecodeError` handler (lines 228-239). -/
def parseFallback (text : String) : AnalysisDict :=
  { performance_score := 5
    strengths := ["Call completed successfully"]
    improvement_areas := ["Manual review recommended - analysis parsing failed"]
    prompt_suggestions := ["System prompt may need refinement"]
    compliance_issues := []
    detailed_analysis :=
      "Automated analysis encountered parsing issues. Raw AI response: " ++ text.take 500 ++ "..." }

/-- Fallback returned from the outer `except Exception` handler (lines 241-250). -/
def apiFallback (err : String) : AnalysisDict :=
  { performance_score := 0
    strengths := []
    improvement_areas := ["Analysis failed - API error"]
    prompt_suggestions := []
    compliance_issues := ["System error during analysis"]
    detailed_analysis := "Analysis failed due to API error: " ++ err }

/-- Line 223: `transcript[:1000] + "..." if len(transcript) > 1000 else transcript`. -/
def truncateExcerpt (transcript : String) : String :=
  if transcript.length > 1000 then transcript.take 1000 ++ "..." else transcript

/-- Embeds `analyze_call_performance` from the parse of the completion reply
onward.  On successful decode the six required fields are defaulted, the score
is float-coerced, and the result is stored when `call_id` is truthy; a failed
coercion raises `ValueError`, which the `except json.JSONDecodeError` clause
does not catch, so it reaches the outer handler and yields `apiFallback`
without storing. -/
def analyze_call_performance (transcript system_prompt : String) (call_id : Option String)
    (now : String) (outcome : RemoteOutcome) (store : AnalysisStore) :
    AnalysisDict × AnalysisStore :=
  match outcome with
  | RemoteOutcome.failure err => (apiFallback err, store)
  | RemoteOutcome.reply text none => (parseFallback text, store)
  | RemoteOutcome.reply _text (some pa) =>
      let ps : ScoreVal :=
        match pa.performance_score with
        | some v => v
        | none => ScoreVal.coercible 5
      let st := match pa.strengths with | some v => v | none => []
      let im := match pa.improvement_areas with | some v => v | none => []
      let su := match pa.prompt_suggestions with | some v => v | none => []
      let co := match pa.compliance_issues with | some v => v | none => []
      let de := match pa.detailed_analysis with | some v => v | none => "Analysis completed"
      match ps with
      | ScoreVal.uncoercible err => (apiFallback err, store)
      | ScoreVal.coercible q =>
          let analysis_json : AnalysisDict :=
            { performance_score := q, strengths := st, improvement_areas := im,
              prompt_suggestions := su, compliance_issues := co, detailed_analysis := de }
          match call_id with
          | some cid =>
              if cid = "" then (analysis_json, store)
              else (analysis_json,
                storePut store cid
                  { core := analysis_json, call_id := cid, analyzed_at := now,
                    transcript := truncateExcerpt transcript })
          | none => (analysis_json, store)

/-! ### Pipeline recency filter and per-call field attachment
(`VAPIAnalyzer.process_recent_calls`) -/

/-- Classification of the value found under `createdAt` / `created_at`:
a string `datetime.fromisoformat` accepts (carrying the normalized naive
instant), a string it rejects with `ValueError`, a truthy non-string (whose
`.endswith` raises, reaching the outer `except`), or a falsy value
(absent-key default, empty string, `None`). -/
inductive CreatedAtVal
  | parsable (t : Int)
  | malformed (s : String)
  | nonStringTruthy
  | falsy
deriving DecidableEq

inductive PyVal
  | num (n : Int)
  | str (s : String)
deriving DecidableEq

structure CallRecord where
  id : String
  createdAt : Option CreatedAtVal
  created_at : Option CreatedAtVal
  duration : Option PyVal
  endedAt : Option PyVal
deriving DecidableEq

/-- Line 270: `call.get('createdAt', call.get('created_at', ''))`; a missing
result is the falsy default. -/
def createdRaw (c : CallRecord) : Option CreatedAtVal :=
  c.createdAt.orElse (fun _ => c.created_at)

/-- The per-call branch of the time filter (lines 267-292): falsy timestamps
never enter the `if created_at:` body; parse failures append the call; parsed
times are compared strictly against the cutoff. -/
def includeCall (cutoff : Int) (c : CallRecord) : Bool :=
  match createdRaw c with
  | none => false
  | some CreatedAtVal.falsy => false
  | some (CreatedAtVal.malformed _) => true
  | some CreatedAtVal.nonStringTruthy => true
  | some (CreatedAtVal.parsable t) => decide (t > cutoff)

/-- Computes `cutoff_time = datetime.now() - timedelta(hours=hours_back)`. -/
def cutoffTime (now hours_back : Int) : Int := now - hours_back

/-- The `recent_calls` accumulation loop. -/
def recentCalls (now hours_back : Int) (calls : List CallRecord) : List CallRecord :=
  calls.filter (includeCall (cutoffTime now hours_back))

/-- Line 317: `call.get('duration', call.get('endedAt', 0))`. -/
def durationOf (c : CallRecord) : PyVal :=
  match c.duration with
  | some v => v
  | none =>
      match c.endedAt with
      | some w => w
      | none => PyVal.num 0

structure PipelineRec where
  core : AnalysisDict
  call_id : String
  call_time : Option CreatedAtVal
  duration : PyVal
deriving DecidableEq

/-- Lines 315-317: the pipeline attaches `call_id`, `call_time` and
`duration` to a freshly produced analysis. -/
def attachCallFields (a : AnalysisDict) (c : CallRecord) : PipelineRec :=
  { core := a
    call_id := c.id
    call_time := createdRaw c
    duration := durationOf c }

/-! ### Summary aggregation (`VAPIAnalyzer.generate_summary_report`),
numeric part -/

def pyMax : List Rat → Rat
  | [] => 0
  | s :: t => t.foldl max s

def pyMin : List Rat → Rat
  | [] => 0
  | s :: t => t.foldl min s

/-- Banker-rounding to an integer, the behavior of Python `round`. -/
def roundHalfEven (q : Rat) : Int :=
  let f := ⌊q⌋
  let r := q - f
  if r < 1/2 then f else if 1/2 < r then f + 1 else if f % 2 = 0 then f else f + 1

/-- Python `round(x, 2)`. -/
def pyRound2 (q : Rat) : Rat := (roundHalfEven (q * 100) : Int) / 100

structure ScoreSummary where
  total_calls_analyzed : Nat
  average_performance_score : Rat
  highest : Rat
  lowest : Rat
  excellent : Nat
  good : Nat
  needs_improvement : Nat
deriving DecidableEq

/-- Embeds the numeric summary of `generate_summary_report`; the empty case
returns the explicit marker dict. Every record carries its
`performance_score` key, so the `get` default never fires. -/
def generate_summary_report (analyses : List AnalysisDict) : Except String ScoreSummary :=
  match analyses with
  | [] => Except.error "No analyses to summarize"
  | a :: rest =>
      let total := (a :: rest).length
      let scores := (a :: rest).map (fun x => x.performance_score)
      let avg_score : Rat := if scores.isEmpty then 0 else scores.sum / (total : Rat)
      Except.ok
        { total_calls_analyzed := total
          average_performance_score := pyRound2 avg_score
          highest := pyMax scores
          lowest := pyMin scores
          excellent := (scores.filter (fun s => decide (8 ≤ s))).length
          good := (scores.filter (fun s => decide (6 ≤ s) && decide (s < 8))).length
          needs_improvement := (scores.filter (fun s => decide (s < 6))).length }

/-! ### Substring helper used to state properties of the fallback texts -/

def listStartsWith : List Char → List Char → Bool
  | _, [] => true
  | [], _ :: _ => false
  | h :: t, n :: m => h = n && listStartsWith t m

def listMentions : List Char → List Char → Bool
  | [], needle => needle.isEmpty
  | h :: t, needle => listStartsWith (h :: t) needle || listMentions t needle

def mentions (hay needle : String) : Bool := listMentions hay.data needle.data

def lowerAscii (s : String) : String := String.mk (s.data.map Char.toLower)

/-! ### Claim C1 -/

def c1A : StoredAnalysis :=
  { core := { performance_score := 7, strengths := [], improvement_areas := [],
              prompt_suggestions := [], compliance_issues := [], detailed_analysis := "first" },
    call_id := "call-1", analyzed_at := "t1", transcript := "ta" }

def c1B : StoredAnalysis :=
  { core := { performance_score := 3, strengths := [], improvement_areas := [],
              prompt_suggestions := [], compliance_issues := [], detailed_analysis := "second" },
    call_id := "call-1", analyzed_at := "t2", transcript := "tb" }

/-- C1, counterexample: the store write is a plain dict assignment, so inserting
`c1A` and then `c1B` under the same call id leaves `c1B`, not `c1A`, stored —
the second insertion is not a no-op. -/
theorem c1_put_not_idempotent_counterexample :
    dictGet (storePut (storePut [] "call-1" c1A) "call-1" c1B) "call-1" = some c1B ∧
      c1B ≠ c1A := by
  constructor
  · rfl
  · decide

/-- C1, amended: insertion under an existing call id overwrites — the stored
record equals the second insert (last-writer-wins), other keys are untouched,
and the store still holds at most one record per call id (key uniqueness is
preserved by the write). -/
theorem c1_store_last_writer_wins (d : AnalysisStore) (cid : String)
    (A B : StoredAnalysis) :
    dictGet (storePut (storePut d cid A) cid B) cid = some B ∧
      (∀ k, k ≠ cid → dictGet (storePut (storePut d cid A) cid B) k = dictGet d k) ∧
      (keysNodup d → keysNodup (storePut (storePut d cid A) cid B)) := by
  refine ⟨dictGet_insert_self _ _ _, fun k hk => ?_, fun h => ?_⟩
  · unfold storePut
    rw [dictGet_insert_ne _ _ _ _ hk, dictGet_insert_ne _ _ _ _ hk]
  · exact keysNodup_insert _ _ _ (keysNodup_insert _ _ _ h)

/-- C1, witness for the amended theorem at a concrete store. -/
theorem c1_store_last_writer_wins_witness :
    dictGet (storePut (storePut [("x", c1A)] "call-1" c1A) "call-1" c1B) "call-1" = some c1B ∧
      dictGet (storePut (storePut [("x", c1A)] "call-1" c1A) "call-1" c1B) "x" =
        dictGet [("x", c1A)] "x" ∧
      keysNodup (storePut (storePut [("x", c1A)] "call-1" c1A) "call-1" c1B) := by
  have h := c1_store_last_writer_wins [("x", c1A)] "call-1" c1A c1B
  exact ⟨h.1, h.2.1 "x" (by decide), h.2.2 (by decide)⟩

/-! ### Claim C2 -/

/-- C2, counterexample: with a provided non-empty call id, neither the
remote-call-failure path nor the decode-failure path persists anything — the
store stays empty, refuting persistence on every outcome path. -/
theorem c2_fallbacks_not_persisted_counterexample :
    dictGet (analyze_call_performance "t" "sp" (some "call-1") "now"
        (RemoteOutcome.failure "boom") []).2 "call-1" = none ∧
      dictGet (analyze_call_performance "t" "sp" (some "call-1") "now"
        (RemoteOutcome.reply "junk" none) []).2 "call-1" = none := by
  constructor <;> rfl

/-- C2, amended: the scorer persists its result only on the successful-decode
path with a truthy call id; there the stored record carries `analyzed_at = now`
and the transcript excerpt truncated at 1000 characters with an ellipsis
appended.  The decode-failure, remote-call-failure, and failed-coercion paths
return their fallback without touching the store. -/
theorem c2_persistence_success_path_only (t sp now text err : String)
    (cid : Option String) (cid2 : String) (q : Rat) (st im su co : List String)
    (de : String) (store : AnalysisStore) :
    (analyze_call_performance t sp cid now (RemoteOutcome.failure err) store).2 = store ∧
      (analyze_call_performance t sp cid now (RemoteOutcome.reply text none) store).2 = store ∧
      (analyze_call_performance t sp cid now
        (RemoteOutcome.reply text (some
          { performance_score := some (ScoreVal.uncoercible err), strengths := some st,
            improvement_areas := some im, prompt_suggestions := some su,
            compliance_issues := some co, detailed_analysis := some de })) store).2 = store ∧
      (analyze_call_performance t sp (some cid2) now
        (RemoteOutcome.reply text (some
          { performance_score := some (ScoreVal.coercible q), strengths := some st,
            improvement_areas := some im, prompt_suggestions := some su,
            compliance_issues := some co, detailed_analysis := some de })) store).2 =
        (if cid2 = "" then store
         else storePut store cid2
           { core := { performance_score := q, strengths := st, improvement_areas := im,
                       prompt_suggestions := su, compliance_issues := co,
                       detailed_analysis := de },
             call_id := cid2, analyzed_at := now, transcript := truncateExcerpt t }) ∧
      truncateExcerpt t = (if t.length > 1000 then t.take 1000 ++ "..." else t) := by
  refine ⟨rfl, rfl, rfl, ?_, rfl⟩
  by_cases h : cid2 = "" <;> simp [analyze_call_performance, h]

/-! ### Claim C3 -/

def c3call1 : CallRecord :=
  { id := "c1", createdAt := some (CreatedAtVal.parsable 99), created_at := none,
    duration := none, endedAt := none }

def c3call2 : CallRecord :=
  { id := "c2", createdAt := some (CreatedAtVal.parsable 75), created_at := none,
    duration := none, endedAt := none }

def c3call3 : CallRecord :=
  { id := "c3", createdAt := none, created_at := none, duration := none, endedAt := none }

/-- C3, counterexample: with `now = 100` and `hours_back = 24` (cutoff 76), the
triple `createdAt = now - 1`, `createdAt = now - 25`, no-timestamp yields the
candidate set containing only the first call; the timestampless third call is
dropped by the `if created_at:` truthiness check, not included. -/
theorem c3_missing_timestamp_dropped_counterexample :
    recentCalls 100 24 [c3call1, c3call2, c3call3] = [c3call1] ∧
      c3call3 ∉ recentCalls 100 24 [c3call1, c3call2, c3call3] := by
  constructor
  · rfl
  · decide

/-- C3, amended: an absent or falsy timestamp silently excludes the call; a
present string that fails to parse, or a present truthy non-string, includes
it; a parsed timestamp includes it exactly when strictly after the cutoff
`now - hours_back`; the candidate set is the order-preserving filter of the
fetched calls under this test. -/
theorem c3_time_filter_cases (cutoff t : Int) (id s : String)
    (du ea : Option PyVal) (ca2 : Option CreatedAtVal) :
    includeCall cutoff
        { id := id, createdAt := none, created_at := none,
          duration := du, endedAt := ea } = false ∧
      includeCall cutoff
        { id := id, createdAt := some CreatedAtVal.falsy, created_at := ca2,
          duration := du, endedAt := ea } = false ∧
      includeCall cutoff
        { id := id, createdAt := some (CreatedAtVal.malformed s), created_at := ca2,
          duration := du, endedAt := ea } = true ∧
      includeCall cutoff
        { id := id, createdAt := some CreatedAtVal.nonStringTruthy, created_at := ca2,
          duration := du, endedAt := ea } = true ∧
      includeCall cutoff
        { id := id, createdAt := some (CreatedAtVal.parsable t), created_at := ca2,
          duration := du, endedAt := ea } = decide (t > cutoff) ∧
      (∀ (calls : List CallRecord) (now hb : Int),
        recentCalls now hb calls = calls.filter (includeCall (now - hb))) := by
  exact ⟨rfl, rfl, rfl, rfl, rfl, fun calls now hb => rfl⟩

/-! ### Claim C10 -/

/-- C10: the duration attached by the pipeline is the explicit `duration`
field when present, else the `endedAt` field when present, else the numeric
constant 0 — a value is always attached. -/
theorem c10_duration_fallback_chain (a : AnalysisDict) (id : String)
    (ca cra : Option CreatedAtVal) (v w : PyVal) (ea : Option PyVal) :
    (attachCallFields a
        { id := id, createdAt := ca, created_at := cra,
          duration := some v, endedAt := ea }).duration = v ∧
      (attachCallFields a
        { id := id, createdAt := ca, created_at := cra,
          duration := none, endedAt := some w }).duration = w ∧
      (attachCallFields a
        { id := id, createdAt := ca, created_at := cra,
          duration := none, endedAt := none }).duration = PyVal.num 0 := by
  exact ⟨rfl, rfl, rfl⟩

/-! ### Claim C4 -/

/-- C4: activating an unknown id through the route fails with NotFound and
leaves the registry untouched; activating a known id succeeds, records it as
the current active id, and leaves a prompt active exactly when it is the
target. -/
theorem c4_activate_route_spec (s : RegistryState) (id : String) :
    (dictGet s.system_prompts id = none →
        api_activate_prompt s id = (Except.error ApiError.NotFound, s)) ∧
      (dictGet s.system_prompts id ≠ none →
        (api_activate_prompt s id).1 = Except.ok () ∧
          (api_activate_prompt s id).2.active_prompt_id = some id ∧
          ∀ k q, dictGet (api_activate_prompt s id).2.system_prompts k = some q →
            q.is_active = decide (k = id)) := by
  refine ⟨fun h => by simp [api_activate_prompt, h], fun hne => ?_⟩
  cases hd : dictGet s.system_prompts id with
  | none => exact absurd hd hne
  | some p =>
    refine ⟨by simp [api_activate_prompt, hd],
      by simp [api_activate_prompt, activate_prompt, hd], ?_⟩
    intro k q hq
    simp only [api_activate_prompt, hd, Option.isNone_some, Bool.false_eq_true,
      if_false, activate_prompt, Option.isSome_some, if_true] at hq
    rw [dictGet_setActiveTrue, dictGet_deactivateAll] at hq
    cases hk : dictGet s.system_prompts k with
    | none => rw [hk] at hq; simp at hq
    | some pk =>
      rw [hk] at hq
      simp only [Option.map_some', Option.some.injEq] at hq
      rw [← hq]
      by_cases hki : k = id <;> simp [hki]

def c4S : RegistryState :=
  (add_system_prompt (add_system_prompt initRegistry "A" "pa" "t1").2 "B" "pb" "t2").2

def c4q2 : SystemPrompt :=
  { id := "prompt_2", name := "B", prompt := "pb", created_at := "t2", is_active := false }

/-- C4, witness: a concrete registry with two prompts; an unknown id 404s with
the state unchanged, and activating `prompt_1` leaves `prompt_2` inactive. -/
theorem c4_activate_route_spec_witness :
    api_activate_prompt c4S "nope" = (Except.error ApiError.NotFound, c4S) ∧
      (api_activate_prompt c4S "prompt_1").1 = Except.ok () ∧
      (api_activate_prompt c4S "prompt_1").2.active_prompt_id = some "prompt_1" ∧
      c4q2.is_active = false := by
  have h1 := (c4_activate_route_spec c4S "nope").1 (by decide)
  have h2 := (c4_activate_route_spec c4S "prompt_1").2 (by decide)
  have h3 := h2.2.2 "prompt_2" c4q2 (by decide)
  exact ⟨h1, h2.1, h2.2.1, by simpa using h3⟩

/-! ### Claim C5 -/

/-- C5, counterexample: a decoded reply whose `performance_score` fails float
coercion yields the score-0.0 remote-failure fallback, not the score-5.0
decode-failure fallback — the `ValueError` raised by `float(...)` is not a
`json.JSONDecodeError`, so it reaches the outer handler. -/
theorem c5_coercion_failure_counterexample :
    (analyze_call_performance "t" "sp" none "now"
        (RemoteOutcome.reply "raw" (some
          { performance_score := some
              (ScoreVal.uncoercible "could not convert string to float"),
            strengths := none, improvement_areas := none, prompt_suggestions := none,
            compliance_issues := none, detailed_analysis := none })) []).1.performance_score
      = 0 ∧ (0 : Rat) ≠ 5 := by
  exact ⟨rfl, by norm_num⟩

/-- C5, amended: on decode success every missing field is defaulted (lists to
`[]`, score to 5.0, detail to the placeholder), provided fields are preserved
verbatim and the score is float-coerced; a coercion failure however produces
the remote-call-failure fallback (score 0.0), not the decode-failure fallback. -/
theorem c5_decode_defaults_and_coercion (t sp now text err : String) (q : Rat)
    (store : AnalysisStore) (ost oim osu oco : Option (List String))
    (ode : Option String) :
    (analyze_call_performance t sp none now
        (RemoteOutcome.reply text (some
          { performance_score := none, strengths := ost, improvement_areas := oim,
            prompt_suggestions := osu, compliance_issues := oco,
            detailed_analysis := ode })) store).1 =
      { performance_score := 5, strengths := ost.getD [],
        improvement_areas := oim.getD [], prompt_suggestions := osu.getD [],
        compliance_issues := oco.getD [],
        detailed_analysis := ode.getD "Analysis completed" } ∧
      (analyze_call_performance t sp none now
        (RemoteOutcome.reply text (some
          { performance_score := some (ScoreVal.coercible q), strengths := ost,
            improvement_areas := oim, prompt_suggestions := osu,
            compliance_issues := oco, detailed_analysis := ode })) store).1 =
      { performance_score := q, strengths := ost.getD [],
        improvement_areas := oim.getD [], prompt_suggestions := osu.getD [],
        compliance_issues := oco.getD [],
        detailed_analysis := ode.getD "Analysis completed" } ∧
      (analyze_call_performance t sp none now
        (RemoteOutcome.reply text (some
          { performance_score := some (ScoreVal.uncoercible err), strengths := ost,
            improvement_areas := oim, prompt_suggestions := osu,
            compliance_issues := oco, detailed_analysis := ode })) store).1 =
      apiFallback err := by
  refine ⟨?_, ?_, ?_⟩ <;>
    cases ost <;> cases oim <;> cases osu <;> cases oco <;> cases ode <;> rfl

/-! ### Claim C6 -/

/-- C6: the two fallback records are fully determined and distinguishable —
remote failure gives score 0.0, no strengths, the API-error improvement area
and compliance issue (matching the quoted phrases up to letter case), and the
error text embedded in the detail; unparseable text gives score 5.0 with an
improvement area mentioning parsing. -/
theorem c6_fallback_distinguishability (t sp now err text : String)
    (cid : Option String) (store : AnalysisStore) :
    (analyze_call_performance t sp cid now (RemoteOutcome.failure err) store).1 =
        apiFallback err ∧
      apiFallback err =
        { performance_score := 0, strengths := [],
          improvement_areas := ["Analysis failed - API error"],
          prompt_suggestions := [],
          compliance_issues := ["System error during analysis"],
          detailed_analysis := "Analysis failed due to API error: " ++ err } ∧
      lowerAscii "Analysis failed - API error" = lowerAscii "analysis failed - API error" ∧
      lowerAscii "System error during analysis" = lowerAscii "system error during analysis" ∧
      (analyze_call_performance t sp cid now (RemoteOutcome.reply text none) store).1 =
        parseFallback text ∧
      (parseFallback text).performance_score = 5 ∧
      (parseFallback text).improvement_areas =
        ["Manual review recommended - analysis parsing failed"] ∧
      mentions "Manual review recommended - analysis parsing failed" "parsing" = true ∧
      (apiFallback err).performance_score ≠ (parseFallback text).performance_score := by
  refine ⟨rfl, rfl, by decide, by decide, rfl, rfl, rfl, by decide, ?_⟩
  show (0 : Rat) ≠ 5
  norm_num

/-! ### Claim C7 -/

def c7s1 : RegistryState := (add_system_prompt initRegistry "A" "pa" "t1").2

def c7s2 : RegistryState := (add_system_prompt c7s1 "B" "pb" "t2").2

def c7s3 : RegistryState := (api_delete_prompt c7s2 "prompt_1").2

/-- C7, counterexample: after adding prompts 1 and 2 and deleting prompt 1
through the route, the next add generates `prompt_2` again — an id already
generated before — and overwrites the stored prompt `B` with the new `C`. -/
theorem c7_id_reuse_counterexample :
    (add_system_prompt c7s1 "B" "pb" "t2").1 = "prompt_2" ∧
      (api_delete_prompt c7s2 "prompt_1").1 = Except.ok () ∧
      (add_system_prompt c7s3 "C" "pc" "t3").1 = "prompt_2" ∧
      dictGet c7s3.system_prompts "prompt_2" =
        some { id := "prompt_2", name := "B", prompt := "pb",
               created_at := "t2", is_active := false } ∧
      dictGet (add_system_prompt c7s3 "C" "pc" "t3").2.system_prompts "prompt_2" =
        some { id := "prompt_2", name := "C", prompt := "pc",
               created_at := "t3", is_active := false } := by
  exact ⟨rfl, rfl, rfl, rfl, rfl⟩

/-- C7, amended: over any sequence of add/activate calls (no deletions) the
stored keys are exactly `prompt_1 .. prompt_n` for `n` adds, pairwise
distinct; the next add returns the fresh id `prompt_(n+1)`, not currently
stored, and appends — never overwriting an existing prompt.  (Deletion breaks
this: the generator uses the current store size, so ids can be reused.) -/
theorem c7_fresh_ids_without_delete (ops : List RegOp) (name promptText now : String) :
    dictKeys (runRegOps initRegistry ops).system_prompts = promptKeys (countAdds ops) ∧
      (dictKeys (runRegOps initRegistry ops).system_prompts).Nodup ∧
      (add_system_prompt (runRegOps initRegistry ops) name promptText now).1 =
        promptKey (countAdds ops + 1) ∧
      (add_system_prompt (runRegOps initRegistry ops) name promptText now).1 ∉
        dictKeys (runRegOps initRegistry ops).system_prompts ∧
      (add_system_prompt (runRegOps initRegistry ops) name promptText now).2.system_prompts =
        (runRegOps initRegistry ops).system_prompts ++
          [(promptKey (countAdds ops + 1),
            { id := promptKey (countAdds ops + 1), name := name, prompt := promptText,
              created_at := now, is_active := false })] := by
  have h := runRegOps_keys_init ops
  have hlen : (runRegOps initRegistry ops).system_prompts.length = countAdds ops := by
    rw [← dictKeys_length, h, promptKeys_length]
  have hid : (add_system_prompt (runRegOps initRegistry ops) name promptText now).1 =
      promptKey (countAdds ops + 1) := by
    simp [add_system_prompt, hlen, promptKey]
  have hfresh : (add_system_prompt (runRegOps initRegistry ops) name promptText now).1 ∉
      dictKeys (runRegOps initRegistry ops).system_prompts := by
    rw [hid, h]
    exact promptKey_not_mem _
  refine ⟨h, by rw [h]; exact promptKeys_nodup _, hid, hfresh, ?_⟩
  have hfresh' : promptKey (countAdds ops + 1) ∉
      dictKeys (runRegOps initRegistry ops).system_prompts := by
    rw [h]; exact promptKey_not_mem _
  simp only [add_system_prompt]
  rw [show ("prompt_" ++ Nat.repr ((runRegOps initRegistry ops).system_prompts.length + 1))
      = promptKey (countAdds ops + 1) by rw [hlen]; rfl]
  exact dictInsert_of_not_mem _ _ _ hfresh'

/-! ### Claim C8 -/

/-- C8: after any sequence of add/activate calls starting from the empty
registry, an activate call leaves at most one stored prompt with
`is_active = true` (it first clears every flag, then sets at most one). -/
theorem c8_single_active_invariant (ops : List RegOp) (id : String) :
    countActive (activate_prompt (runRegOps initRegistry ops) id) ≤ 1 :=
  countActive_activate _ id (runRegOps_keysNodup ops)

/-! ### Claim C9 -/

theorem bucket_partition (scores : List Rat) :
    (scores.filter (fun s => decide (8 ≤ s))).length +
      (scores.filter (fun s => decide (6 ≤ s) && decide (s < 8))).length +
      (scores.filter (fun s => decide (s < 6))).length = scores.length := by
  induction scores with
  | nil => rfl
  | cons s t ih =>
    by_cases h8 : 8 ≤ s
    · have hn8 : ¬ s < 8 := not_lt.mpr h8
      have hn6 : ¬ s < 6 := fun hc => hn8 (by linarith)
      simp only [List.filter_cons, decide_eq_true h8, decide_eq_false hn8,
        decide_eq_false hn6, Bool.and_false, Bool.false_eq_true, if_false, if_true,
        List.length_cons]
      omega
    · by_cases h6 : 6 ≤ s
      · have h8' : s < 8 := not_le.mp h8
        have hn6 : ¬ s < 6 := not_lt.mpr h6
        simp only [List.filter_cons, decide_eq_false h8, decide_eq_true h6,
          decide_eq_true h8', decide_eq_false hn6, Bool.true_and, Bool.false_eq_true,
          if_false, if_true, List.length_cons]
        omega
      · have h6' : s < 6 := not_le.mp h6
        simp only [List.filter_cons, decide_eq_false h8, decide_eq_false h6,
          decide_eq_true h6', Bool.false_and, Bool.false_eq_true, if_false, if_true,
          List.length_cons]
        omega

theorem le_foldl_max (t : List Rat) (a : Rat) : a ≤ t.foldl max a := by
  induction t generalizing a with
  | nil => exact le_refl a
  | cons s r ih =>
    calc a ≤ max a s := le_max_left a s
      _ ≤ r.foldl max (max a s) := ih (max a s)

theorem mem_le_foldl_max (t : List Rat) (a x : Rat) (hx : x ∈ t) : x ≤ t.foldl max a := by
  induction t generalizing a with
  | nil => cases hx
  | cons s r ih =>
    rcases List.mem_cons.mp hx with rfl | hx'
    · calc x ≤ max a x := le_max_right a x
        _ ≤ r.foldl max (max a x) := le_foldl_max r (max a x)
    · exact ih (max a s) hx'

theorem foldl_max_mem (t : List Rat) (a : Rat) : t.foldl max a = a ∨ t.foldl max a ∈ t := by
  induction t generalizing a with
  | nil => exact Or.inl rfl
  | cons s r ih =>
    rcases ih (max a s) with h | h
    · rcases max_choice a s with hm | hm
      · exact Or.inl (by rw [List.foldl_cons, h, hm])
      · exact Or.inr (by rw [List.foldl_cons, h, hm]; exact List.mem_cons_self s r)
    · exact Or.inr (List.mem_cons_of_mem s h)

theorem foldl_min_le (t : List Rat) (a : Rat) : t.foldl min a ≤ a := by
  induction t generalizing a with
  | nil => exact le_refl a
  | cons s r ih =>
    calc r.foldl min (min a s) ≤ min a s := ih (min a s)
      _ ≤ a := min_le_left a s

theorem foldl_min_le_mem (t : List Rat) (a x : Rat) (hx : x ∈ t) : t.foldl min a ≤ x := by
  induction t generalizing a with
  | nil => cases hx
  | cons s r ih =>
    rcases List.mem_cons.mp hx with rfl | hx'
    · calc r.foldl min (min a x) ≤ min a x := foldl_min_le r (min a x)
        _ ≤ x := min_le_right a x
    · exact ih (min a s) hx'

theorem foldl_min_mem (t : List Rat) (a : Rat) : t.foldl min a = a ∨ t.foldl min a ∈ t := by
  induction t generalizing a with
  | nil => exact Or.inl rfl
  | cons s r ih =>
    rcases ih (min a s) with h | h
    · rcases min_choice a s with hm | hm
      · exact Or.inl (by rw [List.foldl_cons, h, hm])
      · exact Or.inr (by rw [List.foldl_cons, h, hm]; exact List.mem_cons_self s r)
    · exact Or.inr (List.mem_cons_of_mem s h)

theorem pyMax_bounds (s0 : List Rat) (hne : s0 ≠ []) :
    (∀ x ∈ s0, x ≤ pyMax s0) ∧ pyMax s0 ∈ s0 := by
  cases s0 with
  | nil => exact absurd rfl hne
  | cons s t =>
    constructor
    · intro x hx
      rcases List.mem_cons.mp hx with rfl | hx'
      · exact le_foldl_max t x
      · exact mem_le_foldl_max t s x hx'
    · rcases foldl_max_mem t s with h | h
      · have heq : pyMax (s :: t) = s := h
        rw [heq]
        exact List.mem_cons_self s t
      · exact List.mem_cons_of_mem s h

theorem pyMin_bounds (s0 : List Rat) (hne : s0 ≠ []) :
    (∀ x ∈ s0, pyMin s0 ≤ x) ∧ pyMin s0 ∈ s0 := by
  cases s0 with
  | nil => exact absurd rfl hne
  | cons s t =>
    constructor
    · intro x hx
      rcases List.mem_cons.mp hx with rfl | hx'
      · exact foldl_min_le t x
      · exact foldl_min_le_mem t s x hx'
    · rcases foldl_min_mem t s with h | h
      · have heq : pyMin (s :: t) = s := h
        rw [heq]
        exact List.mem_cons_self s t
      · exact List.mem_cons_of_mem s h

def c9a : AnalysisDict :=
  { performance_score := 9, strengths := [], improvement_areas := [],
    prompt_suggestions := [], compliance_issues := [], detailed_analysis := "x" }

def c9b : AnalysisDict :=
  { performance_score := 7, strengths := [], improvement_areas := [],
    prompt_suggestions := [], compliance_issues := [], detailed_analysis := "x" }

def c9c : AnalysisDict :=
  { performance_score := 4, strengths := [], improvement_areas := [],
    prompt_suggestions := [], compliance_issues := [], detailed_analysis := "x" }

theorem c9_eval : generate_summary_report [c9a, c9b, c9c] =
    Except.ok { total_calls_analyzed := 3, average_performance_score := 667/100,
                highest := 9, lowest := 4, excellent := 1, good := 1,
                needs_improvement := 1 } := by
  norm_num [generate_summary_report, c9a, c9b, c9c, pyMax, pyMin, pyRound2,
    roundHalfEven, max_def, min_def, List.filter]

/-- C9, counterexample: on the batch with scores [9, 7, 4] the reported mean is
the two-decimal rounding 6.67, which differs from the exact sum-over-count
20/3 = 6.666... claimed. -/
theorem c9_mean_is_rounded_counterexample :
    generate_summary_report [c9a, c9b, c9c] =
      Except.ok { total_calls_analyzed := 3, average_performance_score := 667/100,
                  highest := 9, lowest := 4, excellent := 1, good := 1,
                  needs_improvement := 1 } ∧
      (667/100 : Rat) ≠ (9 + 7 + 4 : Rat) / 3 := by
  exact ⟨c9_eval, by norm_num⟩

/-- C9, amended: a non-empty batch reports the count, the mean rounded to two
decimal places (6.67 for the batch [9, 7, 4]), the attained minimum and
maximum, and the three-bucket distribution which partitions the batch; the
empty batch returns the explicit empty-report marker. -/
theorem c9_summary_spec :
    generate_summary_report [] = Except.error "No analyses to summarize" ∧
      ∀ (a : AnalysisDict) (rest : List AnalysisDict) (r : ScoreSummary),
        generate_summary_report (a :: rest) = Except.ok r →
          r.total_calls_analyzed = (a :: rest).length ∧
          r.excellent + r.good + r.needs_improvement = r.total_calls_analyzed ∧
          r.average_performance_score =
            pyRound2 (((a :: rest).map (fun x => x.performance_score)).sum /
              (((a :: rest).length : Nat) : Rat)) ∧
          (∀ x ∈ (a :: rest).map (fun x => x.performance_score),
            r.lowest ≤ x ∧ x ≤ r.highest) ∧
          r.highest ∈ (a :: rest).map (fun x => x.performance_score) ∧
          r.lowest ∈ (a :: rest).map (fun x => x.performance_score) := by
  refine ⟨rfl, ?_⟩
  intro a rest r hr
  simp only [generate_summary_report, List.isEmpty_cons, Bool.false_eq_true,
    if_false, Except.ok.injEq] at hr
  subst hr
  have hne : (a :: rest).map (fun x => x.performance_score) ≠ [] := by simp
  refine ⟨rfl, ?_, rfl, ?_, ?_, ?_⟩
  · have hp := bucket_partition ((a :: rest).map (fun x => x.performance_score))
    simpa using hp
  · intro x hx
    exact ⟨(pyMin_bounds _ hne).1 x hx, (pyMax_bounds _ hne).1 x hx⟩
  · exact (pyMax_bounds _ hne).2
  · exact (pyMin_bounds _ hne).2

/-- C9, witness for the amended theorem at the concrete batch [9, 7, 4]. -/
theorem c9_summary_spec_witness :
    generate_summary_report [] = Except.error "No analyses to summarize" ∧
      (3 : Nat) = [c9a, c9b, c9c].length ∧
      (1 : Nat) + 1 + 1 = 3 ∧
      (9 : Rat) ∈ [c9a, c9b, c9c].map (fun x => x.performance_score) ∧
      (4 : Rat) ∈ [c9a, c9b, c9c].map (fun x => x.performance_score) := by
  have h := c9_summary_spec
  have h2 := h.2 c9a [c9b, c9c]
    { total_calls_analyzed := 3, average_performance_score := 667/100,
      highest := 9, lowest := 4, excellent := 1, good := 1, needs_improvement := 1 }
    c9_eval
  exact ⟨h.1, h2.1, h2.2.1, h2.2.2.2.2.1, h2.2.2.2.2.2⟩
